import Mathlib

/-!
Verification of the `99tech-challenges` repository against its specification.

The development has three parts, matching the three challenges in the
repository:

* `SumToN` — the three `sum_to_n` implementations from the standalone
  TypeScript file (problem 4).
* `CrudServer` — the `ItemService` of the Express/SQLite CRUD server
  (problem 5): `createItem` and `updateItem`, with the SQLite `items` table
  modelled as an explicit list of rows.
* `Scoreboard` — the session-scoped one-time-use action-token chain and the
  atomic score-update pipeline of the architecture document (problem 6).
  The repository contains only a design README for this part, no executable
  code, so the operations are modelled from the specification's words
  (each such definition is marked `Modelled from the spec:`).

Machine numbers are embedded as `Nat`/`Int`; fallible operations return an
`Except` error paired with the (possibly updated) state, so that "the call
fails and leaves the state unchanged" is directly expressible.
-/

namespace SumToN

/-- `sum_to_n_a` from the source: `(n * (n + 1)) / 2` (closed form).
On natural inputs the division is exact since `n * (n + 1)` is even. -/
def sum_to_n_a (n : Nat) : Nat := n * (n + 1) / 2

/-- `sum_to_n_b` from the source: builds `Array.from({length: n}, (_, i) => i + 1)`,
i.e. the list `[1, …, n]`, then `reduce((acc, curr) => acc + curr, 0)`. -/
def sum_to_n_b (n : Nat) : Nat :=
  ((List.range n).map (· + 1)).foldl (· + ·) 0

/-- `sum_to_n_c` from the source: `if (n <= 0) return 0; return n + sum_to_n_c (n - 1)`.
On `Nat`, the guard `n ≤ 0` holds exactly for `n = 0`. -/
def sum_to_n_c : Nat → Nat
  | 0 => 0
  | n + 1 => (n + 1) + sum_to_n_c n

end SumToN

namespace SumToN

theorem two_mul_sum_to_n_c (n : Nat) : 2 * sum_to_n_c n = n * (n + 1) := by
  induction n with
  | zero => rfl
  | succ m ih => simp [sum_to_n_c, Nat.mul_add, ih]; ring

theorem sum_to_n_b_eq_c (n : Nat) : sum_to_n_b n = sum_to_n_c n := by
  induction n with
  | zero => rfl
  | succ m ih =>
    unfold sum_to_n_b at *
    rw [List.range_succ, List.map_append, List.foldl_append, ih]
    simp [sum_to_n_c, Nat.add_comm]

theorem sum_to_n_a_eq_c (n : Nat) : sum_to_n_a n = sum_to_n_c n := by
  have h := two_mul_sum_to_n_c n
  unfold sum_to_n_a
  omega

end SumToN

/-- C8: the three implementations `sum_to_n_a`, `sum_to_n_b`, `sum_to_n_c`
agree on every natural number `n`, and their common value is `n * (n + 1) / 2`
in exact integer arithmetic. -/
theorem sum_to_n_equivalent (n : Nat) :
    SumToN.sum_to_n_a n = SumToN.sum_to_n_b n ∧
    SumToN.sum_to_n_b n = SumToN.sum_to_n_c n ∧
    SumToN.sum_to_n_a n = n * (n + 1) / 2 := by
  refine ⟨?_, SumToN.sum_to_n_b_eq_c n, rfl⟩
  rw [SumToN.sum_to_n_a_eq_c, SumToN.sum_to_n_b_eq_c]

namespace CrudServer

/-- A JavaScript field of an object literal: absent (`undefined`), explicit
`null`, or a value. `updateItem` distinguishes `undefined` (field skipped)
from `null` (field set to NULL), so both layers are modelled. -/
inductive JsField (α : Type) where
  | undef : JsField α
  | null : JsField α
  | val : α → JsField α
deriving DecidableEq, Repr

/-- The payload `itemData : Partial<Item>` destructured by `createItem` and
`updateItem`: the five writable columns of the `items` table. -/
structure ItemPayload where
  name : JsField String
  description : JsField String
  category : JsField String
  price : JsField Int
  quantity : JsField Int
deriving DecidableEq, Repr

/-- JavaScript truthiness of a string field: `undefined`, `null` and `""`
are falsy. Used by `createItem`'s `if (!name)` guard and by the
`description || null` / `category || null` defaults. -/
def JsField.truthyStr : JsField String → Bool
  | .undef => false
  | .null => false
  | .val s => s ≠ ""

/-- JavaScript truthiness of a numeric field: `undefined`, `null` and `0`
are falsy. Used by the `price || null` and `quantity || 0` defaults. -/
def JsField.truthyInt : JsField Int → Bool
  | .undef => false
  | .null => false
  | .val n => n ≠ 0

/-- `x !== undefined`, the guard `updateItem` uses to decide whether a
field participates in the UPDATE. -/
def JsField.isDefined : JsField α → Bool
  | .undef => false
  | _ => true

/-- `x || null` on a string field: keep the value when truthy, else NULL. -/
def JsField.orNullStr (x : JsField String) : Option String :=
  if x.truthyStr then match x with | .val s => some s | _ => none else none

/-- `x || null` on a numeric field: keep the value when truthy, else NULL. -/
def JsField.orNullInt (x : JsField Int) : Option Int :=
  if x.truthyInt then match x with | .val n => some n | _ => none else none

/-- `quantity || 0`: keep the value when truthy, else 0 (so `null`,
`undefined` and `0` all store 0). -/
def JsField.orZero (x : JsField Int) : Int :=
  match x with | .val n => n | _ => 0

/-- One row of the SQLite `items` table. The nullable columns
(`description`, `category`, `price`) are `Option`s; numeric SQL values are
embedded as `Int`, timestamps as `Nat`. SQLite stores whatever value an
UPDATE binds, so after an update a column may hold NULL (`none`). -/
structure ItemRow where
  id : Nat
  name : Option String
  description : Option String
  category : Option String
  price : Option Int
  quantity : Option Int
  created_at : Nat
  updated_at : Nat
deriving DecidableEq, Repr

/-- The `items` table: its rows plus the AUTOINCREMENT counter that
generates `this.lastID` for the next INSERT. -/
structure ItemsTable where
  rows : List ItemRow
  nextRowId : Nat
deriving DecidableEq, Repr

/-- `ItemService.createItem`: rejects a falsy `name` ("Name is required"),
otherwise INSERTs one row built with the `|| null` / `|| 0` defaults and
resolves with `{ id: this.lastID }`. The result is the promise outcome
paired with the table after the call. -/
def createItem (now : Nat) (itemData : ItemPayload) (db : ItemsTable) :
    Except String Nat × ItemsTable :=
  if ¬ itemData.name.truthyStr then
    (.error "Name is required", db)
  else
    let row : ItemRow :=
      { id := db.nextRowId
        name := itemData.name.orNullStr
        description := itemData.description.orNullStr
        category := itemData.category.orNullStr
        price := itemData.price.orNullInt
        quantity := some itemData.quantity.orZero
        created_at := now
        updated_at := now }
    (.ok db.nextRowId, { rows := db.rows ++ [row], nextRowId := db.nextRowId + 1 })

/-- Number of payload fields that are `!== undefined`, i.e. the length of
the `updates` array `updateItem` accumulates. -/
def definedFieldCount (p : ItemPayload) : Nat :=
  (if p.name.isDefined then 1 else 0) +
  (if p.description.isDefined then 1 else 0) +
  (if p.category.isDefined then 1 else 0) +
  (if p.price.isDefined then 1 else 0) +
  (if p.quantity.isDefined then 1 else 0)

/-- The SQL value a defined field binds: a `null` field binds NULL, a value
binds itself. (Only called on defined fields.) -/
def JsField.toSqlStr : JsField String → Option String
  | .val s => some s
  | _ => none

/-- The SQL value a defined numeric field binds. -/
def JsField.toSqlInt : JsField Int → Option Int
  | .val n => some n
  | _ => none

/-- The effect of the generated `UPDATE items SET … WHERE id = ?` on one
row: each defined field overwrites its column, `updated_at` is set to
CURRENT_TIMESTAMP. -/
def applyUpdates (now : Nat) (p : ItemPayload) (r : ItemRow) : ItemRow :=
  { r with
    name := if p.name.isDefined then p.name.toSqlStr else r.name
    description := if p.description.isDefined then p.description.toSqlStr else r.description
    category := if p.category.isDefined then p.category.toSqlStr else r.category
    price := if p.price.isDefined then p.price.toSqlInt else r.price
    quantity := if p.quantity.isDefined then p.quantity.toSqlInt else r.quantity
    updated_at := now }

/-- `ItemService.updateItem`: collects the defined fields; with none it
throws "No fields to update"; otherwise runs the UPDATE, and when
`this.changes === 0` (no row has the id) throws "Item not found". -/
def updateItem (now : Nat) (id : Nat) (itemData : ItemPayload) (db : ItemsTable) :
    Except String Unit × ItemsTable :=
  if definedFieldCount itemData = 0 then
    (.error "No fields to update", db)
  else
    let changes := (db.rows.filter (fun r => r.id == id)).length
    if changes = 0 then
      (.error "Item not found", db)
    else
      (.ok (),
        { db with rows := db.rows.map (fun r => if r.id == id then applyUpdates now itemData r else r) })

end CrudServer

namespace CrudServer

theorem no_matching_row_iff (db : ItemsTable) (id : Nat) :
    (db.rows.filter (fun r => r.id == id)).length = 0 ↔ ∀ r ∈ db.rows, r.id ≠ id := by
  rw [List.length_eq_zero, List.filter_eq_nil_iff]
  simp

end CrudServer

/-- C9: `createItem` throws "Name is required" and leaves the items table
untouched whenever the payload's `name` is absent, `null` or the empty
string; with a non-empty name it resolves with the generated row id and
appends exactly one row, carrying that id, to the table. -/
theorem createItem_spec (now : Nat) (p : CrudServer.ItemPayload) (db : CrudServer.ItemsTable) :
    ((p.name = .undef ∨ p.name = .null ∨ p.name = .val "") →
      CrudServer.createItem now p db = (.error "Name is required", db)) ∧
    (∀ s, p.name = .val s → s ≠ "" →
      (CrudServer.createItem now p db).1 = .ok db.nextRowId ∧
      ∃ r, (CrudServer.createItem now p db).2.rows = db.rows ++ [r] ∧
        r.id = db.nextRowId ∧ r.name = some s) := by
  constructor
  · rintro (h | h | h) <;>
      simp [CrudServer.createItem, h, CrudServer.JsField.truthyStr]
  · intro s hs hne
    simp [CrudServer.createItem, hs, CrudServer.JsField.truthyStr, hne,
      CrudServer.JsField.orNullStr]

/-- Witness for C9 at a concrete payload and table: an all-`undefined`
payload is rejected with "Name is required", and a payload named "pen" is
inserted with the generated id. -/
theorem createItem_spec_witness :
    (CrudServer.createItem 5
        ⟨.undef, .undef, .undef, .undef, .undef⟩ ⟨[], 1⟩ =
      (.error "Name is required", ⟨[], 1⟩)) ∧
    (CrudServer.createItem 5
        ⟨.val "pen", .undef, .undef, .undef, .undef⟩ ⟨[], 1⟩).1 = .ok 1 := by
  refine ⟨(createItem_spec 5 ⟨.undef, .undef, .undef, .undef, .undef⟩ ⟨[], 1⟩).1
      (Or.inl rfl), ?_⟩
  exact ((createItem_spec 5 ⟨.val "pen", .undef, .undef, .undef, .undef⟩ ⟨[], 1⟩).2
      "pen" rfl (by decide)).1

/-- C10: `updateItem` throws "No fields to update" and writes nothing when
no updatable field is defined; with at least one defined field but no row
carrying the id it throws "Item not found" with the table unchanged; and it
resolves successfully exactly when a defined field and a matching row both
exist, in which case the matching row (and only it) is rewritten. -/
theorem updateItem_spec (now id : Nat) (p : CrudServer.ItemPayload) (db : CrudServer.ItemsTable) :
    (CrudServer.definedFieldCount p = 0 →
      CrudServer.updateItem now id p db = (.error "No fields to update", db)) ∧
    (CrudServer.definedFieldCount p ≠ 0 → (∀ r ∈ db.rows, r.id ≠ id) →
      CrudServer.updateItem now id p db = (.error "Item not found", db)) ∧
    ((CrudServer.updateItem now id p db).1 = .ok () ↔
      CrudServer.definedFieldCount p ≠ 0 ∧ ∃ r ∈ db.rows, r.id = id) ∧
    ((CrudServer.updateItem now id p db).1 = .ok () →
      (CrudServer.updateItem now id p db).2.rows =
        db.rows.map (fun r => if r.id == id then CrudServer.applyUpdates now p r else r)) := by
  refine ⟨fun h => by simp [CrudServer.updateItem, h], ?_, ?_, ?_⟩
  · intro hfields hnone
    rw [← CrudServer.no_matching_row_iff] at hnone
    simp [CrudServer.updateItem, hfields, hnone]
  · constructor
    · intro hok
      by_cases hfields : CrudServer.definedFieldCount p = 0
      · simp [CrudServer.updateItem, hfields] at hok
      · refine ⟨hfields, ?_⟩
        by_cases hrow : (db.rows.filter (fun r => r.id == id)).length = 0
        · simp [CrudServer.updateItem, hfields, hrow] at hok
        · rw [CrudServer.no_matching_row_iff] at hrow
          push_neg at hrow
          exact hrow
    · rintro ⟨hfields, r, hr, hid⟩
      have hrow : (db.rows.filter (fun r => r.id == id)).length ≠ 0 := by
        rw [Ne, CrudServer.no_matching_row_iff]
        push_neg
        exact ⟨r, hr, hid⟩
      simp [CrudServer.updateItem, hfields, hrow]
  · intro hok
    by_cases hfields : CrudServer.definedFieldCount p = 0
    · simp [CrudServer.updateItem, hfields] at hok
    · by_cases hrow : (db.rows.filter (fun r => r.id == id)).length = 0
      · simp [CrudServer.updateItem, hfields, hrow] at hok
      · simp [CrudServer.updateItem, hfields, hrow]

/-- Witness for C10 at concrete inputs: the empty payload is rejected with
"No fields to update", a quantity-only update on an empty table is rejected
with "Item not found", and the same update on a table holding row 1
resolves successfully. -/
theorem updateItem_spec_witness :
    (CrudServer.updateItem 9 1
        ⟨.undef, .undef, .undef, .undef, .undef⟩ ⟨[], 1⟩ =
      (.error "No fields to update", ⟨[], 1⟩)) ∧
    (CrudServer.updateItem 9 1
        ⟨.undef, .undef, .undef, .undef, .val 4⟩ ⟨[], 1⟩ =
      (.error "Item not found", ⟨[], 1⟩)) ∧
    (CrudServer.updateItem 9 1
        ⟨.undef, .undef, .undef, .undef, .val 4⟩
        ⟨[⟨1, some "pen", none, none, none, some 0, 2, 2⟩], 2⟩).1 = .ok () := by
  refine ⟨(updateItem_spec 9 1 _ _).1 (by decide),
    ((updateItem_spec 9 1 _ _).2.1 (by decide) (by simp)), ?_⟩
  exact ((updateItem_spec 9 1 ⟨.undef, .undef, .undef, .undef, .val 4⟩
      ⟨[⟨1, some "pen", none, none, none, some 0, 2, 2⟩], 2⟩).2.2.1).2
    ⟨by decide, ⟨1, some "pen", none, none, none, some 0, 2, 2⟩, by simp, rfl⟩

namespace Scoreboard

/-- Modelled from the spec: failure kinds of the core operations (§6/§7 of
the architecture design; the repository ships only the design document for
this challenge, no executable code). -/
inductive GameError where
  | SessionAlreadyActive
  | TokenNotFound
  | InvalidToken
  | TokenAlreadyUsed
  | SessionExpired
  | InvalidActionType
  | RateLimitExceeded
  | SessionNotFound
deriving DecidableEq, Repr

/-- Modelled from the spec: a Session record (§3). Identifiers and times
are embedded as `Nat`. -/
structure Session where
  sessionId : Nat
  userId : Nat
  createdAt : Nat
  expiresAt : Nat
  active : Bool
  actionsCompleted : Nat
  endedAt : Option Nat
deriving DecidableEq, Repr

/-- Modelled from the spec: an ActionToken record (§3), the single-use
credential chained within a session. -/
structure ActionToken where
  tokenId : Nat
  sessionId : Nat
  userId : Nat
  expiresAt : Nat
  issuedAt : Nat
  active : Bool
  consumedAt : Option Nat
deriving DecidableEq, Repr

/-- Modelled from the spec: a ScoreEvent history record (§3), append-only. -/
structure ScoreEvent where
  userId : Nat
  actionType : String
  pointsEarned : Nat
  tokenId : Nat
  scoreBefore : Nat
  scoreAfter : Nat
  occurredAt : Nat
deriving DecidableEq, Repr

/-- Modelled from the spec: the shared mutable state of the core — session
store, token store, score ledger (`scores` maps userId to score, one entry
per user), event history, the Request Gate's rolling-window logs of
admitted calls, and a freshness counter generating the unguessable ids. -/
structure GameState where
  sessions : List Session
  tokens : List ActionToken
  scores : List (Nat × Nat)
  events : List ScoreEvent
  submitLog : List (Nat × Nat)
  startLog : List (Nat × Nat)
  nextId : Nat
deriving DecidableEq, Repr

/-- Modelled from the spec: the fixed session duration ("e.g. 1800s"). -/
def sessionDuration : Nat := 1800

/-- Modelled from the spec: the fixed point table of §4.2; any other
action type is unknown. -/
def pointsFor (actionType : String) : Option Nat :=
  if actionType = "watch_ad" then some 10
  else if actionType = "solve_puzzle" then some 15
  else if actionType = "complete_level" then some 20
  else if actionType = "daily_bonus" then some 5
  else none

/-- O(1)-addressable token lookup by `tokenId` (§3 "independently
addressable"). -/
def findToken (s : GameState) (tokenId : Nat) : Option ActionToken :=
  s.tokens.find? (fun t => t.tokenId == tokenId)

/-- Session lookup by `sessionId`. -/
def findSession (s : GameState) (sessionId : Nat) : Option Session :=
  s.sessions.find? (fun x => x.sessionId == sessionId)

/-- Current score of a user in the ledger (0 before the first event). -/
def lookupScore (s : GameState) (userId : Nat) : Nat :=
  match s.scores.find? (fun p => p.1 == userId) with
  | some p => p.2
  | none => 0

/-- Write a user's score: overwrite the existing ledger entry, or append a
fresh one for a first-time scorer. -/
def updateScore (scores : List (Nat × Nat)) (userId sc : Nat) : List (Nat × Nat) :=
  if scores.any (fun p => p.1 == userId) then
    scores.map (fun p => if p.1 == userId then (p.1, sc) else p)
  else scores ++ [(userId, sc)]

/-- Number of admitted calls by `userId` in the rolling window of length
`window` ending at `now` (the Request Gate's rate-limit counter, §4.5). -/
def recentCount (log : List (Nat × Nat)) (userId now window : Nat) : Nat :=
  (log.filter (fun p => p.1 == userId && decide (now < p.2 + window))).length

/-- Retiring the consumed token: the token with the consumed `tokenId`
flips to `active = false` with `consumedAt = now`; every other token is
untouched. -/
def consumeTok (now tid : Nat) (t : ActionToken) : ActionToken :=
  if t.tokenId == tid then { t with active := false, consumedAt := some now } else t

/-- The successor token issued by a rotation: fresh id, same session, same
owner, `expiresAt` inherited verbatim from the session (§4.1). -/
def newToken (now u : Nat) (sess : Session) (s : GameState) : ActionToken :=
  { tokenId := s.nextId
    sessionId := sess.sessionId
    userId := u
    expiresAt := sess.expiresAt
    issuedAt := now
    active := true
    consumedAt := none }

/-- Incrementing `actionsCompleted` of the session that hosted the action. -/
def bumpSession (sid : Nat) (x : Session) : Session :=
  if x.sessionId == sid then { x with actionsCompleted := x.actionsCompleted + 1 } else x

/-- The single atomic step of a successful rotation (§4.1): retire the
consumed token, add its successor, bump the session's `actionsCompleted`. -/
def rotatedState (now u tid : Nat) (sess : Session) (s : GameState) : GameState :=
  { s with
    tokens := newToken now u sess s :: s.tokens.map (consumeTok now tid)
    sessions := s.sessions.map (bumpSession sess.sessionId)
    nextId := s.nextId + 1 }

/-- Modelled from the spec: `validateAndRotate(userId, tokenId)` (§4.1),
the security-critical operation — check, in order, failing fast: token
exists (`TokenNotFound`), token owned by the caller (`InvalidToken`), token
still active (`TokenAlreadyUsed`), referenced session active with
`now ≤ expiresAt` (`SessionExpired`); on success rotate atomically and
return the successor token. Errors leave the state untouched. -/
def validateAndRotate (now userId tokenId : Nat) (s : GameState) :
    Except GameError ActionToken × GameState :=
  match findToken s tokenId with
  | none => (.error .TokenNotFound, s)
  | some tok =>
    if tok.userId ≠ userId then (.error .InvalidToken, s)
    else if tok.active = false then (.error .TokenAlreadyUsed, s)
    else
      match findSession s tok.sessionId with
      | none => (.error .SessionExpired, s)
      | some sess =>
        if sess.active = true ∧ now ≤ sess.expiresAt then
          (.ok (newToken now userId sess s), rotatedState now userId tokenId sess s)
        else (.error .SessionExpired, s)

/-- Lazy expiry of §3: any still-`active` session of the user whose
`expiresAt` has passed flips to inactive on access. -/
def retireExpired (now userId : Nat) (sessions : List Session) : List Session :=
  sessions.map (fun x =>
    if x.userId == userId && x.active && decide (x.expiresAt < now) then { x with active := false } else x)

/-- Modelled from the spec: `startSession(userId)` (§4.1 and §4.5) — rate
limited to 5 per rolling hour; fails with `SessionAlreadyActive` when the
user still has an active unexpired session; otherwise creates the session
(`expiresAt = now + sessionDuration`) together with its first token as one
unit and returns `(tokenId, expiresAt)`. The created records: the session
carries `expiresAt = now + sessionDuration`; its first token copies that
expiry verbatim. -/
def startedState (now userId : Nat) (s : GameState) : GameState :=
  { s with
    sessions :=
      { sessionId := s.nextId
        userId := userId
        createdAt := now
        expiresAt := now + sessionDuration
        active := true
        actionsCompleted := 0
        endedAt := none } :: retireExpired now userId s.sessions
    tokens :=
      { tokenId := s.nextId + 1
        sessionId := s.nextId
        userId := userId
        expiresAt := now + sessionDuration
        issuedAt := now
        active := true
        consumedAt := none } :: s.tokens
    startLog := (userId, now) :: s.startLog
    nextId := s.nextId + 2 }

def startSession (now userId : Nat) (s : GameState) :
    Except GameError (Nat × Nat) × GameState :=
  if 5 ≤ recentCount s.startLog userId now 3600 then (.error .RateLimitExceeded, s)
  else if s.sessions.any (fun x => x.userId == userId && x.active && decide (now ≤ x.expiresAt)) then
    (.error .SessionAlreadyActive, s)
  else
    (.ok (s.nextId + 1, now + sessionDuration), startedState now userId s)

/-- Modelled from the spec: `endSession(userId)` (§4.1) — retires the
current active token without a successor, deactivates the session, and
returns `(finalScore, actionsCompleted, sessionDurationSeconds)`; ending a
user with no active session fails with `SessionNotFound`. -/
def deactivateSession (now sid : Nat) (x : Session) : Session :=
  if x.sessionId == sid then { x with active := false, endedAt := some now } else x

def retireSessTok (sid : Nat) (t : ActionToken) : ActionToken :=
  if t.sessionId == sid && t.active then { t with active := false } else t

def endedState (now sid : Nat) (s : GameState) : GameState :=
  { s with
    sessions := s.sessions.map (deactivateSession now sid)
    tokens := s.tokens.map (retireSessTok sid) }

def endSession (now userId : Nat) (s : GameState) :
    Except GameError (Nat × Nat × Nat) × GameState :=
  match s.sessions.find? (fun x => x.userId == userId && x.active) with
  | none => (.error .SessionNotFound, s)
  | some sess =>
    (.ok (lookupScore s userId, sess.actionsCompleted, now - sess.createdAt),
      endedState now sess.sessionId s)

/-- The success payload of `submitAction`/`applyAction`:
`(scoreAfter, pointsEarned, newTokenId, expiresAt)` (§4.2). -/
structure ActionResult where
  scoreAfter : Nat
  pointsEarned : Nat
  newTokenId : Nat
  expiresAt : Nat
deriving DecidableEq, Repr

/-- Modelled from the spec: the Score Ledger's `applyAction` (§4.2) —
rejects an unknown action type before any mutation, delegates to
`validateAndRotate` (any failure aborts with no score change and no
history entry), then atomically, together with the rotation, writes the
new score and appends one ScoreEvent. -/
def applyAction (now userId : Nat) (actionType : String) (tokenId : Nat) (s : GameState) :
    Except GameError ActionResult × GameState :=
  match pointsFor actionType with
  | none => (.error .InvalidActionType, s)
  | some points =>
    match validateAndRotate now userId tokenId s with
    | (.error e, _) => (.error e, s)
    | (.ok newTok, s1) =>
      let scoreBefore := lookupScore s userId
      let scoreAfter := scoreBefore + points
      let ev : ScoreEvent :=
        { userId := userId
          actionType := actionType
          pointsEarned := points
          tokenId := tokenId
          scoreBefore := scoreBefore
          scoreAfter := scoreAfter
          occurredAt := now }
      (.ok { scoreAfter := scoreAfter
             pointsEarned := points
             newTokenId := newTok.tokenId
             expiresAt := newTok.expiresAt },
        { s1 with scores := updateScore s1.scores userId scoreAfter, events := ev :: s1.events })

/-- Modelled from the spec: the Request Gate's `submitAction` (§4.5) — a
call beyond 10 per rolling minute fails with `RateLimitExceeded` and
performs no state change; an admitted call is recorded in the rolling
window and handed to `applyAction`. -/
def submitAction (now userId tokenId : Nat) (actionType : String) (s : GameState) :
    Except GameError ActionResult × GameState :=
  if 10 ≤ recentCount s.submitLog userId now 60 then (.error .RateLimitExceeded, s)
  else applyAction now userId actionType tokenId { s with submitLog := (userId, now) :: s.submitLog }

/-- One operation of the external interface (§6) that mutates state. -/
inductive Op where
  | start (now userId : Nat)
  | submit (now userId tokenId : Nat) (actionType : String)
  | finish (now userId : Nat)
deriving DecidableEq, Repr

/-- The state transition of one operation (results discarded). -/
def step (s : GameState) : Op → GameState
  | .start now u => (startSession now u s).2
  | .submit now u tid a => (submitAction now u tid a s).2
  | .finish now u => (endSession now u s).2

/-- Executing a sequence of operations. -/
def run (s : GameState) (ops : List Op) : GameState := ops.foldl step s

/-- The empty initial state. -/
def initState : GameState := ⟨[], [], [], [], [], [], 0⟩

end Scoreboard

namespace Scoreboard

/-- A concrete reachable state used to instantiate the theorems: user 7
started a session at time 0, holding session 0 and active token 1. -/
def demoState : GameState := run initState [Op.start 0 7]

end Scoreboard

/-- C1: `validateAndRotate` performs its checks in order and fails fast —
a missing token yields `TokenNotFound`; an existing token of another user
yields `InvalidToken` whatever its active flag or session; an own but
consumed token yields `TokenAlreadyUsed` whatever the session's state; an
own active token whose session is missing, inactive, or past its expiry
yields `SessionExpired`. -/
theorem validateAndRotate_check_order (now u tid : Nat) (s : Scoreboard.GameState) :
    (Scoreboard.findToken s tid = none →
      Scoreboard.validateAndRotate now u tid s = (.error .TokenNotFound, s)) ∧
    (∀ tok, Scoreboard.findToken s tid = some tok → tok.userId ≠ u →
      Scoreboard.validateAndRotate now u tid s = (.error .InvalidToken, s)) ∧
    (∀ tok, Scoreboard.findToken s tid = some tok → tok.userId = u → tok.active = false →
      Scoreboard.validateAndRotate now u tid s = (.error .TokenAlreadyUsed, s)) ∧
    (∀ tok, Scoreboard.findToken s tid = some tok → tok.userId = u → tok.active = true →
      (Scoreboard.findSession s tok.sessionId = none →
        Scoreboard.validateAndRotate now u tid s = (.error .SessionExpired, s)) ∧
      (∀ sess, Scoreboard.findSession s tok.sessionId = some sess →
        ¬ (sess.active = true ∧ now ≤ sess.expiresAt) →
        Scoreboard.validateAndRotate now u tid s = (.error .SessionExpired, s))) := by
  refine ⟨fun h => by simp [Scoreboard.validateAndRotate, h], ?_, ?_, ?_⟩
  · intro tok htok hu
    simp [Scoreboard.validateAndRotate, htok, hu]
  · intro tok htok hu hact
    simp [Scoreboard.validateAndRotate, htok, hu, hact]
  · intro tok htok hu hact
    constructor
    · intro hsess
      simp [Scoreboard.validateAndRotate, htok, hu, hact, hsess]
    · intro sess hsess hnot
      simp [Scoreboard.validateAndRotate, htok, hu, hact, hsess, hnot]

/-- Witness for C1 at concrete inputs: in the demo state, token 99 does
not exist (`TokenNotFound`); token 1 exists but belongs to user 7, so user
8 gets `InvalidToken` even though the token is active; and at time 9999
the (active, owned) token 1 fails with `SessionExpired`. -/
theorem validateAndRotate_check_order_witness :
    Scoreboard.validateAndRotate 5 7 99 Scoreboard.demoState =
      (.error .TokenNotFound, Scoreboard.demoState) ∧
    Scoreboard.validateAndRotate 5 8 1 Scoreboard.demoState =
      (.error .InvalidToken, Scoreboard.demoState) ∧
    Scoreboard.validateAndRotate 9999 7 1 Scoreboard.demoState =
      (.error .SessionExpired, Scoreboard.demoState) := by
  refine ⟨(validateAndRotate_check_order 5 7 99 Scoreboard.demoState).1 (by decide),
    (validateAndRotate_check_order 5 8 1 Scoreboard.demoState).2.1
      ⟨1, 0, 7, 1800, 0, true, none⟩ (by decide) (by decide), ?_⟩
  exact ((validateAndRotate_check_order 9999 7 1 Scoreboard.demoState).2.2.2
      ⟨1, 0, 7, 1800, 0, true, none⟩ (by decide) rfl rfl).2
    ⟨0, 7, 0, 1800, true, 0, none⟩ (by decide) (by decide)

/-- C4: a `submitAction` call that fails with any error mutates neither
the score ledger, nor the event history, nor the token chain, nor the
sessions — the validation/apply sequence is all-or-nothing. -/
theorem submitAction_atomic (now u tid : Nat) (a : String) (s : Scoreboard.GameState)
    (e : Scoreboard.GameError)
    (h : (Scoreboard.submitAction now u tid a s).1 = .error e) :
    (Scoreboard.submitAction now u tid a s).2.scores = s.scores ∧
    (Scoreboard.submitAction now u tid a s).2.events = s.events ∧
    (Scoreboard.submitAction now u tid a s).2.tokens = s.tokens ∧
    (Scoreboard.submitAction now u tid a s).2.sessions = s.sessions := by
  unfold Scoreboard.submitAction at h ⊢
  by_cases hrate : 10 ≤ Scoreboard.recentCount s.submitLog u now 60
  · simp [hrate]
  · simp only [if_neg hrate] at h ⊢
    unfold Scoreboard.applyAction at h ⊢
    cases hp : Scoreboard.pointsFor a with
    | none => simp [hp]
    | some points =>
      simp only [hp] at h ⊢
      rcases hv : Scoreboard.validateAndRotate now u tid
          { s with submitLog := (u, now) :: s.submitLog } with ⟨r, s2⟩
      rw [hv] at h
      cases r with
      | error e2 => exact ⟨rfl, rfl, rfl, rfl⟩
      | ok tk => exact Except.noConfusion h

/-- Witness for C4 at a concrete failing call: user 8 submitting user 7's
token fails, and the scores, events, tokens and sessions are unchanged. -/
theorem submitAction_atomic_witness :
    (Scoreboard.submitAction 5 8 1 "watch_ad" Scoreboard.demoState).2.scores =
      Scoreboard.demoState.scores ∧
    (Scoreboard.submitAction 5 8 1 "watch_ad" Scoreboard.demoState).2.events =
      Scoreboard.demoState.events ∧
    (Scoreboard.submitAction 5 8 1 "watch_ad" Scoreboard.demoState).2.tokens =
      Scoreboard.demoState.tokens ∧
    (Scoreboard.submitAction 5 8 1 "watch_ad" Scoreboard.demoState).2.sessions =
      Scoreboard.demoState.sessions :=
  submitAction_atomic 5 8 1 "watch_ad" Scoreboard.demoState .InvalidToken (by rfl)

/-- C6: the point table is exactly `watch_ad = 10`, `solve_puzzle = 15`,
`complete_level = 20`, `daily_bonus = 5`; every other action type has no
entry, and `applyAction` on it fails with `InvalidActionType` with the
state entirely unchanged — no token rotation, no score change, no history
entry. -/
theorem applyAction_points_table (a : String) (now u tid : Nat) (s : Scoreboard.GameState) :
    Scoreboard.pointsFor "watch_ad" = some 10 ∧
    Scoreboard.pointsFor "solve_puzzle" = some 15 ∧
    Scoreboard.pointsFor "complete_level" = some 20 ∧
    Scoreboard.pointsFor "daily_bonus" = some 5 ∧
    (a ∉ ["watch_ad", "solve_puzzle", "complete_level", "daily_bonus"] →
      Scoreboard.pointsFor a = none) ∧
    (Scoreboard.pointsFor a = none →
      Scoreboard.applyAction now u a tid s = (.error .InvalidActionType, s)) := by
  refine ⟨rfl, rfl, rfl, rfl, ?_, fun h => by simp [Scoreboard.applyAction, h]⟩
  intro hmem
  simp only [List.mem_cons, List.not_mem_nil, or_false, not_or] at hmem
  obtain ⟨h1, h2, h3, h4⟩ := hmem
  simp [Scoreboard.pointsFor, h1, h2, h3, h4]

/-- Witness for C6 at a concrete input: the unknown action type "fly" has
no table entry and is rejected with `InvalidActionType`, mutating nothing. -/
theorem applyAction_points_table_witness :
    Scoreboard.pointsFor "fly" = none ∧
    Scoreboard.applyAction 5 7 "fly" 1 Scoreboard.demoState =
      (.error .InvalidActionType, Scoreboard.demoState) :=
  ⟨(applyAction_points_table "fly" 5 7 1 Scoreboard.demoState).2.2.2.2.1 (by decide),
   (applyAction_points_table "fly" 5 7 1 Scoreboard.demoState).2.2.2.2.2 (by decide)⟩

namespace Scoreboard

@[simp] theorem consumeTok_tokenId (now tid : Nat) (t : ActionToken) :
    (consumeTok now tid t).tokenId = t.tokenId := by
  unfold consumeTok; split <;> rfl

@[simp] theorem consumeTok_sessionId (now tid : Nat) (t : ActionToken) :
    (consumeTok now tid t).sessionId = t.sessionId := by
  unfold consumeTok; split <;> rfl

@[simp] theorem consumeTok_userId (now tid : Nat) (t : ActionToken) :
    (consumeTok now tid t).userId = t.userId := by
  unfold consumeTok; split <;> rfl

@[simp] theorem consumeTok_expiresAt (now tid : Nat) (t : ActionToken) :
    (consumeTok now tid t).expiresAt = t.expiresAt := by
  unfold consumeTok; split <;> rfl

theorem consumeTok_active {now tid : Nat} {t : ActionToken}
    (h : (consumeTok now tid t).active = true) :
    t.tokenId ≠ tid ∧ consumeTok now tid t = t ∧ t.active = true := by
  by_cases hc : t.tokenId = tid
  · exfalso; unfold consumeTok at h; simp [hc] at h
  · have he : consumeTok now tid t = t := by unfold consumeTok; simp [hc]
    rw [he] at h
    exact ⟨hc, he, h⟩

theorem consumeTok_of_inactive {now tid : Nat} {t : ActionToken}
    (h : t.active = false) : (consumeTok now tid t).active = false := by
  unfold consumeTok; split <;> simp [h]

@[simp] theorem bumpSession_sessionId (sid : Nat) (x : Session) :
    (bumpSession sid x).sessionId = x.sessionId := by
  unfold bumpSession; split <;> rfl

@[simp] theorem bumpSession_expiresAt (sid : Nat) (x : Session) :
    (bumpSession sid x).expiresAt = x.expiresAt := by
  unfold bumpSession; split <;> rfl

@[simp] theorem bumpSession_createdAt (sid : Nat) (x : Session) :
    (bumpSession sid x).createdAt = x.createdAt := by
  unfold bumpSession; split <;> rfl

@[simp] theorem deactivateSession_sessionId (now sid : Nat) (x : Session) :
    (deactivateSession now sid x).sessionId = x.sessionId := by
  unfold deactivateSession; split <;> rfl

@[simp] theorem deactivateSession_expiresAt (now sid : Nat) (x : Session) :
    (deactivateSession now sid x).expiresAt = x.expiresAt := by
  unfold deactivateSession; split <;> rfl

@[simp] theorem deactivateSession_createdAt (now sid : Nat) (x : Session) :
    (deactivateSession now sid x).createdAt = x.createdAt := by
  unfold deactivateSession; split <;> rfl

@[simp] theorem retireSessTok_tokenId (sid : Nat) (t : ActionToken) :
    (retireSessTok sid t).tokenId = t.tokenId := by
  unfold retireSessTok; split <;> rfl

@[simp] theorem retireSessTok_sessionId (sid : Nat) (t : ActionToken) :
    (retireSessTok sid t).sessionId = t.sessionId := by
  unfold retireSessTok; split <;> rfl

@[simp] theorem retireSessTok_userId (sid : Nat) (t : ActionToken) :
    (retireSessTok sid t).userId = t.userId := by
  unfold retireSessTok; split <;> rfl

@[simp] theorem retireSessTok_expiresAt (sid : Nat) (t : ActionToken) :
    (retireSessTok sid t).expiresAt = t.expiresAt := by
  unfold retireSessTok; split <;> rfl

theorem retireSessTok_active {sid : Nat} {t : ActionToken}
    (h : (retireSessTok sid t).active = true) :
    retireSessTok sid t = t ∧ t.active = true := by
  by_cases hc : (t.sessionId == sid && t.active) = true
  · exfalso; unfold retireSessTok at h; simp [hc] at h
  · have he : retireSessTok sid t = t := by unfold retireSessTok; simp [hc]
    rw [he] at h
    exact ⟨he, h⟩

theorem retireSessTok_of_inactive {sid : Nat} {t : ActionToken}
    (h : t.active = false) : (retireSessTok sid t).active = false := by
  unfold retireSessTok; split <;> simp [h]

theorem retireExpired_mem {now u : Nat} {sessions : List Session} {x : Session}
    (h : x ∈ sessions) :
    ∃ x' ∈ retireExpired now u sessions,
      x'.sessionId = x.sessionId ∧ x'.expiresAt = x.expiresAt ∧ x'.createdAt = x.createdAt := by
  unfold retireExpired
  refine ⟨_, List.mem_map_of_mem _ h, ?_⟩
  split <;> exact ⟨rfl, rfl, rfl⟩

theorem retireExpired_mem_rev {now u : Nat} {sessions : List Session} {x' : Session}
    (h : x' ∈ retireExpired now u sessions) :
    ∃ x ∈ sessions,
      x'.sessionId = x.sessionId ∧ x'.expiresAt = x.expiresAt ∧ x'.createdAt = x.createdAt := by
  unfold retireExpired at h
  rcases List.mem_map.mp h with ⟨x, hx, rfl⟩
  refine ⟨x, hx, ?_⟩
  split <;> exact ⟨rfl, rfl, rfl⟩

/-- The state well-formedness invariant preserved by every operation:
token ids are distinct and below the freshness counter, session ids are
below it too, a session never has two distinct active tokens, every token
points to a session sharing its expiry, and every session's expiry equals
its creation time plus the fixed duration. -/
structure Inv (s : GameState) : Prop where
  tokNodup : (s.tokens.map ActionToken.tokenId).Nodup
  tokFresh : ∀ t ∈ s.tokens, t.tokenId < s.nextId
  sessFresh : ∀ x ∈ s.sessions, x.sessionId < s.nextId
  uniqueActive : ∀ t1 ∈ s.tokens, ∀ t2 ∈ s.tokens,
    t1.sessionId = t2.sessionId → t1.active = true → t2.active = true → t1 = t2
  tokExpiry : ∀ t ∈ s.tokens, ∃ x ∈ s.sessions,
    x.sessionId = t.sessionId ∧ x.expiresAt = t.expiresAt
  sessExpiry : ∀ x ∈ s.sessions, x.expiresAt = x.createdAt + sessionDuration

theorem inv_mono {s s' : GameState} (h : Inv s) (h1 : s'.tokens = s.tokens)
    (h2 : s'.sessions = s.sessions) (h3 : s'.nextId = s.nextId) : Inv s' := by
  constructor
  · rw [h1]; exact h.tokNodup
  · rw [h1, h3]; exact h.tokFresh
  · rw [h2, h3]; exact h.sessFresh
  · rw [h1]; exact h.uniqueActive
  · rw [h1, h2]; exact h.tokExpiry
  · rw [h2]; exact h.sessExpiry

theorem inv_initState : Inv initState := by
  constructor <;> simp [initState]

end Scoreboard

namespace Scoreboard

theorem findToken_eq {s : GameState} {tid : Nat} {tok : ActionToken}
    (h : findToken s tid = some tok) : tok ∈ s.tokens ∧ tok.tokenId = tid := by
  refine ⟨List.mem_of_find?_eq_some h, ?_⟩
  have := List.find?_some h
  simpa using this

theorem findSession_eq {s : GameState} {sid : Nat} {sess : Session}
    (h : findSession s sid = some sess) : sess ∈ s.sessions ∧ sess.sessionId = sid := by
  refine ⟨List.mem_of_find?_eq_some h, ?_⟩
  have := List.find?_some h
  simpa using this

theorem rotated_tokenIds (now u tid : Nat) (sess : Session) (s : GameState) :
    (rotatedState now u tid sess s).tokens.map ActionToken.tokenId =
      s.nextId :: s.tokens.map ActionToken.tokenId := by
  unfold rotatedState
  simp only [List.map_cons, List.map_map]
  refine congrArg (s.nextId :: ·) ?_
  apply List.map_congr_left
  intro t _
  simp [Function.comp]

theorem inv_rotated {now u tid : Nat} {sess : Session} {s : GameState} {tok : ActionToken}
    (h : Inv s) (htok : findToken s tid = some tok) (_hu : tok.userId = u)
    (hact : tok.active = true) (hsess : findSession s tok.sessionId = some sess) :
    Inv (rotatedState now u tid sess s) := by
  obtain ⟨htokmem, htokid⟩ := findToken_eq htok
  obtain ⟨hsessmem, hsessid⟩ := findSession_eq hsess
  constructor
  · rw [rotated_tokenIds]
    refine List.nodup_cons.mpr ⟨?_, h.tokNodup⟩
    intro hmem
    rcases List.mem_map.mp hmem with ⟨t, ht, hteq⟩
    exact absurd hteq (Nat.ne_of_lt (h.tokFresh t ht))
  · intro t' ht'
    rcases List.mem_cons.mp ht' with rfl | ht''
    · exact Nat.lt_succ_self s.nextId
    · rcases List.mem_map.mp ht'' with ⟨t, ht, rfl⟩
      calc (consumeTok now tid t).tokenId = t.tokenId := consumeTok_tokenId now tid t
        _ < s.nextId := h.tokFresh t ht
        _ < (rotatedState now u tid sess s).nextId := Nat.lt_succ_self s.nextId
  · intro x' hx'
    rcases List.mem_map.mp hx' with ⟨x, hx, rfl⟩
    calc (bumpSession sess.sessionId x).sessionId = x.sessionId := bumpSession_sessionId _ x
      _ < s.nextId := h.sessFresh x hx
      _ < (rotatedState now u tid sess s).nextId := Nat.lt_succ_self s.nextId
  · intro t1 h1 t2 h2 hsid hact1 hact2
    rcases List.mem_cons.mp h1 with rfl | h1'
    · rcases List.mem_cons.mp h2 with rfl | h2'
      · rfl
      · exfalso
        rcases List.mem_map.mp h2' with ⟨t2o, ht2o, rfl⟩
        obtain ⟨hne, heq, hact2o⟩ := consumeTok_active hact2
        have hsid2 : tok.sessionId = t2o.sessionId := by
          have : (newToken now u sess s).sessionId = sess.sessionId := rfl
          rw [this, consumeTok_sessionId] at hsid
          rw [← hsid, hsessid]
        have := h.uniqueActive tok htokmem t2o ht2o hsid2 hact hact2o
        exact hne (this ▸ htokid)
    · rcases List.mem_cons.mp h2 with rfl | h2'
      · exfalso
        rcases List.mem_map.mp h1' with ⟨t1o, ht1o, rfl⟩
        obtain ⟨hne, heq, hact1o⟩ := consumeTok_active hact1
        have hsid1 : tok.sessionId = t1o.sessionId := by
          have : (newToken now u sess s).sessionId = sess.sessionId := rfl
          rw [consumeTok_sessionId, this] at hsid
          rw [hsid, hsessid]
        have := h.uniqueActive tok htokmem t1o ht1o hsid1 hact hact1o
        exact hne (this ▸ htokid)
      · rcases List.mem_map.mp h1' with ⟨t1o, ht1o, rfl⟩
        rcases List.mem_map.mp h2' with ⟨t2o, ht2o, rfl⟩
        obtain ⟨_, heq1, hact1o⟩ := consumeTok_active hact1
        obtain ⟨_, heq2, hact2o⟩ := consumeTok_active hact2
        rw [consumeTok_sessionId, consumeTok_sessionId] at hsid
        rw [heq1, heq2]
        exact h.uniqueActive t1o ht1o t2o ht2o hsid hact1o hact2o
  · intro t' ht'
    rcases List.mem_cons.mp ht' with rfl | ht''
    · refine ⟨bumpSession sess.sessionId sess, ?_, ?_, ?_⟩
      · exact List.mem_map_of_mem _ hsessmem
      · rw [bumpSession_sessionId]; rfl
      · rw [bumpSession_expiresAt]; rfl
    · rcases List.mem_map.mp ht'' with ⟨t, ht, rfl⟩
      obtain ⟨x, hx, hxid, hxexp⟩ := h.tokExpiry t ht
      refine ⟨bumpSession sess.sessionId x, List.mem_map_of_mem _ hx, ?_, ?_⟩
      · rw [bumpSession_sessionId, consumeTok_sessionId]; exact hxid
      · rw [bumpSession_expiresAt, consumeTok_expiresAt]; exact hxexp
  · intro x' hx'
    rcases List.mem_map.mp hx' with ⟨x, hx, rfl⟩
    rw [bumpSession_expiresAt, bumpSession_createdAt]
    exact h.sessExpiry x hx

end Scoreboard

namespace Scoreboard

theorem inv_started {now u : Nat} {s : GameState} (h : Inv s) : Inv (startedState now u s) := by
  constructor
  · unfold startedState
    simp only [List.map_cons]
    refine List.nodup_cons.mpr ⟨?_, h.tokNodup⟩
    intro hmem
    rcases List.mem_map.mp hmem with ⟨t, ht, hteq⟩
    have := h.tokFresh t ht
    omega
  · intro t' ht'
    rcases List.mem_cons.mp ht' with rfl | ht''
    · show s.nextId + 1 < s.nextId + 2
      omega
    · have := h.tokFresh t' ht''
      show t'.tokenId < s.nextId + 2
      omega
  · intro x' hx'
    rcases List.mem_cons.mp hx' with rfl | hx''
    · show s.nextId < s.nextId + 2
      omega
    · obtain ⟨x, hx, hid, _, _⟩ := retireExpired_mem_rev hx''
      have := h.sessFresh x hx
      show x'.sessionId < s.nextId + 2
      omega
  · intro t1 h1 t2 h2 hsid hact1 hact2
    rcases List.mem_cons.mp h1 with rfl | h1'
    · rcases List.mem_cons.mp h2 with rfl | h2'
      · rfl
      · exfalso
        obtain ⟨x, hx, hxid, _⟩ := h.tokExpiry t2 h2'
        have hfr := h.sessFresh x hx
        rw [hxid, ← hsid] at hfr
        exact absurd hfr (by show ¬ s.nextId < s.nextId; omega)
    · rcases List.mem_cons.mp h2 with rfl | h2'
      · exfalso
        obtain ⟨x, hx, hxid, _⟩ := h.tokExpiry t1 h1'
        have hfr := h.sessFresh x hx
        rw [hxid, hsid] at hfr
        exact absurd hfr (by show ¬ s.nextId < s.nextId; omega)
      · exact h.uniqueActive t1 h1' t2 h2' hsid hact1 hact2
  · intro t' ht'
    rcases List.mem_cons.mp ht' with rfl | ht''
    · exact ⟨_, List.mem_cons_self _ _, rfl, rfl⟩
    · obtain ⟨x, hx, hxid, hxexp⟩ := h.tokExpiry t' ht''
      obtain ⟨x', hx', hid', hexp', _⟩ := retireExpired_mem hx
      exact ⟨x', List.mem_cons_of_mem _ hx', by rw [hid']; exact hxid,
        by rw [hexp']; exact hxexp⟩
  · intro x' hx'
    rcases List.mem_cons.mp hx' with rfl | hx''
    · rfl
    · obtain ⟨x, hx, _, hexp, hcr⟩ := retireExpired_mem_rev hx''
      rw [hexp, hcr]
      exact h.sessExpiry x hx

theorem inv_ended {now sid : Nat} {s : GameState} (h : Inv s) : Inv (endedState now sid s) := by
  have hids : (endedState now sid s).tokens.map ActionToken.tokenId =
      s.tokens.map ActionToken.tokenId := by
    unfold endedState
    simp only [List.map_map]
    apply List.map_congr_left
    intro t _
    simp [Function.comp]
  constructor
  · rw [hids]; exact h.tokNodup
  · intro t' ht'
    rcases List.mem_map.mp ht' with ⟨t, ht, rfl⟩
    show (retireSessTok sid t).tokenId < s.nextId
    rw [retireSessTok_tokenId]
    exact h.tokFresh t ht
  · intro x' hx'
    rcases List.mem_map.mp hx' with ⟨x, hx, rfl⟩
    show (deactivateSession now sid x).sessionId < s.nextId
    rw [deactivateSession_sessionId]
    exact h.sessFresh x hx
  · intro t1 h1 t2 h2 hsid hact1 hact2
    rcases List.mem_map.mp h1 with ⟨t1o, ht1o, rfl⟩
    rcases List.mem_map.mp h2 with ⟨t2o, ht2o, rfl⟩
    obtain ⟨heq1, hact1o⟩ := retireSessTok_active hact1
    obtain ⟨heq2, hact2o⟩ := retireSessTok_active hact2
    rw [retireSessTok_sessionId, retireSessTok_sessionId] at hsid
    rw [heq1, heq2]
    exact h.uniqueActive t1o ht1o t2o ht2o hsid hact1o hact2o
  · intro t' ht'
    rcases List.mem_map.mp ht' with ⟨t, ht, rfl⟩
    obtain ⟨x, hx, hxid, hxexp⟩ := h.tokExpiry t ht
    refine ⟨deactivateSession now sid x, List.mem_map_of_mem _ hx, ?_, ?_⟩
    · rw [deactivateSession_sessionId, retireSessTok_sessionId]; exact hxid
    · rw [deactivateSession_expiresAt, retireSessTok_expiresAt]; exact hxexp
  · intro x' hx'
    rcases List.mem_map.mp hx' with ⟨x, hx, rfl⟩
    rw [deactivateSession_expiresAt, deactivateSession_createdAt]
    exact h.sessExpiry x hx

end Scoreboard

namespace Scoreboard

theorem validateAndRotate_error {now u tid : Nat} {s : GameState} {e : GameError}
    {s2 : GameState} (h : validateAndRotate now u tid s = (.error e, s2)) : s2 = s := by
  unfold validateAndRotate at h
  split at h
  · exact (Prod.mk.injEq .. |>.mp h).2.symm
  · split at h
    · exact (Prod.mk.injEq .. |>.mp h).2.symm
    · split at h
      · exact (Prod.mk.injEq .. |>.mp h).2.symm
      · split at h
        · exact (Prod.mk.injEq .. |>.mp h).2.symm
        · split at h
          · exact absurd (Prod.mk.injEq .. |>.mp h).1 (by simp)
          · exact (Prod.mk.injEq .. |>.mp h).2.symm

theorem validateAndRotate_ok {now u tid : Nat} {s : GameState} {tk : ActionToken}
    {s2 : GameState} (h : validateAndRotate now u tid s = (.ok tk, s2)) :
    ∃ tok sess, findToken s tid = some tok ∧ tok.userId = u ∧ tok.active = true ∧
      findSession s tok.sessionId = some sess ∧ sess.active = true ∧ now ≤ sess.expiresAt ∧
      tk = newToken now u sess s ∧ s2 = rotatedState now u tid sess s := by
  unfold validateAndRotate at h
  split at h
  · exact absurd (Prod.mk.injEq .. |>.mp h).1 (by simp)
  next tok htok =>
    split at h
    · exact absurd (Prod.mk.injEq .. |>.mp h).1 (by simp)
    next hu =>
      split at h
      · exact absurd (Prod.mk.injEq .. |>.mp h).1 (by simp)
      next hact =>
        split at h
        · exact absurd (Prod.mk.injEq .. |>.mp h).1 (by simp)
        next sess hsess =>
          split at h
          next hcond =>
            obtain ⟨h1, h2⟩ := Prod.mk.injEq .. |>.mp h
            refine ⟨tok, sess, htok, not_not.mp hu, ?_, hsess, hcond.1, hcond.2,
              (Except.ok.injEq .. |>.mp h1).symm, h2.symm⟩
            revert hact
            cases tok.active <;> simp
          · exact absurd (Prod.mk.injEq .. |>.mp h).1 (by simp)

theorem inv_submit {now u tid : Nat} {a : String} {s : GameState} (h : Inv s) :
    Inv (submitAction now u tid a s).2 := by
  unfold submitAction
  by_cases hrate : 10 ≤ recentCount s.submitLog u now 60
  · simp only [if_pos hrate]
    exact h
  · simp only [if_neg hrate]
    have h1 : Inv { s with submitLog := (u, now) :: s.submitLog } :=
      inv_mono h rfl rfl rfl
    unfold applyAction
    cases hp : pointsFor a with
    | none => exact h1
    | some points =>
      rcases hv : validateAndRotate now u tid { s with submitLog := (u, now) :: s.submitLog }
        with ⟨r, s2⟩
      cases r with
      | error e => exact h1
      | ok tk =>
        obtain ⟨tok, sess, htok, hu2, hact, hsess, _, _, _, hs2⟩ := validateAndRotate_ok hv
        subst hs2
        exact inv_mono (inv_rotated h1 htok hu2 hact hsess) rfl rfl rfl

theorem inv_step {s : GameState} (h : Inv s) (op : Op) : Inv (step s op) := by
  cases op with
  | start now u =>
    show Inv (startSession now u s).2
    unfold startSession
    by_cases h1 : 5 ≤ recentCount s.startLog u now 3600
    · simp only [if_pos h1]; exact h
    · simp only [if_neg h1]
      by_cases h2 : (s.sessions.any fun x =>
          x.userId == u && x.active && decide (now ≤ x.expiresAt)) = true
      · simp only [if_pos h2]; exact h
      · simp only [if_neg h2]
        exact inv_started h
  | submit now u tid a => exact inv_submit h
  | finish now u =>
    show Inv (endSession now u s).2
    unfold endSession
    cases hf : s.sessions.find? (fun x => x.userId == u && x.active) with
    | none => exact h
    | some sess => exact inv_ended h

theorem inv_run {s : GameState} (h : Inv s) (ops : List Op) : Inv (run s ops) := by
  induction ops generalizing s with
  | nil => exact h
  | cons op ops ih => exact ih (inv_step h op)

end Scoreboard

namespace Scoreboard

/-- Whether the token with id `tid` exists and has been consumed
(`active = false`). -/
def tokenConsumedB (s : GameState) (tid : Nat) : Bool :=
  match findToken s tid with
  | some t => !t.active
  | none => false

theorem find?_map_pres {f : ActionToken → ActionToken}
    (hid : ∀ t, (f t).tokenId = t.tokenId) (l : List ActionToken) (tid : Nat) :
    (l.map f).find? (fun t => t.tokenId == tid) =
      (l.find? (fun t => t.tokenId == tid)).map f := by
  rw [List.find?_map]
  have : ((fun t : ActionToken => t.tokenId == tid) ∘ f) =
      (fun t : ActionToken => t.tokenId == tid) := by
    funext t
    simp [Function.comp, hid]
  rw [this]

theorem consumed_step {s : GameState} {tid : Nat} (h : Inv s)
    (hc : tokenConsumedB s tid = true) (op : Op) : tokenConsumedB (step s op) tid = true := by
  have hex : ∃ t, findToken s tid = some t ∧ t.active = false := by
    unfold tokenConsumedB at hc
    cases hf : findToken s tid with
    | none => rw [hf] at hc; simp at hc
    | some t =>
      rw [hf] at hc
      exact ⟨t, rfl, by simpa using hc⟩
  obtain ⟨t, htf, hti⟩ := hex
  obtain ⟨htmem, htid⟩ := findToken_eq htf
  have htfresh : tid < s.nextId := htid ▸ h.tokFresh t htmem
  cases op with
  | start now u =>
    show tokenConsumedB (startSession now u s).2 tid = true
    unfold startSession
    by_cases h1 : 5 ≤ recentCount s.startLog u now 3600
    · simp only [if_pos h1]; exact hc
    · simp only [if_neg h1]
      by_cases h2 : (s.sessions.any fun x =>
          x.userId == u && x.active && decide (now ≤ x.expiresAt)) = true
      · simp only [if_pos h2]; exact hc
      · simp only [if_neg h2]
        unfold tokenConsumedB findToken startedState
        rw [List.find?_cons_of_neg _ (by simp; omega)]
        unfold findToken at htf
        rw [htf]
        simp [hti]
  | submit now u tid2 a =>
    show tokenConsumedB (submitAction now u tid2 a s).2 tid = true
    unfold submitAction
    by_cases hrate : 10 ≤ recentCount s.submitLog u now 60
    · simp only [if_pos hrate]; exact hc
    · simp only [if_neg hrate]
      unfold applyAction
      cases hp : pointsFor a with
      | none => exact hc
      | some points =>
        rcases hv : validateAndRotate now u tid2 { s with submitLog := (u, now) :: s.submitLog }
          with ⟨r, s2⟩
        cases r with
        | error e => exact hc
        | ok tk =>
          obtain ⟨tok, sess, htok, hu2, hact, hsess, _, _, _, hs2⟩ := validateAndRotate_ok hv
          subst hs2
          show tokenConsumedB
            { rotatedState now u tid2 sess { s with submitLog := (u, now) :: s.submitLog } with
              scores := _, events := _ } tid = true
          unfold tokenConsumedB findToken rotatedState
          rw [List.find?_cons_of_neg _ (by simp [newToken]; omega)]
          rw [find?_map_pres (fun t => consumeTok_tokenId now tid2 t)]
          unfold findToken at htf
          rw [htf]
          simp [consumeTok_of_inactive hti]
  | finish now u =>
    show tokenConsumedB (endSession now u s).2 tid = true
    unfold endSession
    cases hf2 : s.sessions.find? (fun x => x.userId == u && x.active) with
    | none => exact hc
    | some sess =>
      unfold tokenConsumedB findToken endedState
      rw [find?_map_pres (fun t => retireSessTok_tokenId sess.sessionId t)]
      unfold findToken at htf
      rw [htf]
      simp [retireSessTok_of_inactive hti]

theorem consumed_run {s : GameState} {tid : Nat} (h : Inv s)
    (hc : tokenConsumedB s tid = true) (ops : List Op) :
    tokenConsumedB (run s ops) tid = true := by
  induction ops generalizing s with
  | nil => exact hc
  | cons op ops ih => exact ih (inv_step h op) (consumed_step h hc op)

theorem length_le_one_of_nodup {α : Type} {l : List α} (hnd : l.Nodup)
    (hall : ∀ a ∈ l, ∀ b ∈ l, a = b) : l.length ≤ 1 := by
  match l with
  | [] => simp
  | [a] => simp
  | a :: b :: l' =>
    exfalso
    have hab := hall a (by simp) b (by simp)
    rw [List.nodup_cons] at hnd
    refine hnd.1 ?_
    rw [hab]
    exact List.mem_cons_self b l'

theorem active_count_le_one {s : GameState} (h : Inv s) (sid : Nat) :
    (s.tokens.filter (fun t => t.sessionId == sid && t.active)).length ≤ 1 := by
  have hnd : s.tokens.Nodup := List.Nodup.of_map ActionToken.tokenId h.tokNodup
  refine length_le_one_of_nodup
    (List.Nodup.sublist (List.filter_sublist s.tokens) hnd) ?_
  intro t1 h1 t2 h2
  rw [List.mem_filter] at h1 h2
  obtain ⟨hm1, hp1⟩ := h1
  obtain ⟨hm2, hp2⟩ := h2
  rw [Bool.and_eq_true, beq_iff_eq] at hp1 hp2
  exact h.uniqueActive t1 hm1 t2 hm2 (hp1.1.trans hp2.1.symm) hp1.2 hp2.2

end Scoreboard

/-- C2: after any sequence of operations from the empty state, every
session has at most one active token; and a consumed token never returns
to `active = true` under any further sequence of operations (each
retire-and-issue is a single atomic `step`, so no state with two active
tokens is ever observable). -/
theorem single_active_token_per_session (ops ops' : List Scoreboard.Op) (sid tid : Nat) :
    ((Scoreboard.run Scoreboard.initState ops).tokens.filter
      (fun t => t.sessionId == sid && t.active)).length ≤ 1 ∧
    (Scoreboard.tokenConsumedB (Scoreboard.run Scoreboard.initState ops) tid = true →
      Scoreboard.tokenConsumedB
        (Scoreboard.run (Scoreboard.run Scoreboard.initState ops) ops') tid = true) := by
  have hinv := Scoreboard.inv_run Scoreboard.inv_initState ops
  exact ⟨Scoreboard.active_count_le_one hinv sid,
    fun hc => Scoreboard.consumed_run hinv hc ops'⟩

/-- Witness for C2 at concrete inputs: after a start and one action,
session 0 has exactly one active token, and the consumed token 1 stays
consumed after a further replay attempt. -/
theorem single_active_token_per_session_witness :
    Scoreboard.tokenConsumedB
      (Scoreboard.run
        (Scoreboard.run Scoreboard.initState
          [Scoreboard.Op.start 0 7, Scoreboard.Op.submit 5 7 1 "watch_ad"])
        [Scoreboard.Op.submit 6 7 1 "watch_ad"]) 1 = true :=
  (single_active_token_per_session
    [Scoreboard.Op.start 0 7, Scoreboard.Op.submit 5 7 1 "watch_ad"]
    [Scoreboard.Op.submit 6 7 1 "watch_ad"] 0 1).2 (by decide)

namespace Scoreboard

/-- The expiry instant of the session with id `sid`, when it exists. -/
def sessionExpiry (s : GameState) (sid : Nat) : Option Nat :=
  (findSession s sid).map Session.expiresAt

theorem sessionExpiry_map {f : Session → Session}
    (hid : ∀ x, (f x).sessionId = x.sessionId)
    (hexp : ∀ x, (f x).expiresAt = x.expiresAt) (l : List Session) (sid : Nat) :
    ((l.map f).find? (fun x => x.sessionId == sid)).map Session.expiresAt =
      (l.find? (fun x => x.sessionId == sid)).map Session.expiresAt := by
  rw [List.find?_map]
  have hpred : ((fun x : Session => x.sessionId == sid) ∘ f) =
      (fun x : Session => x.sessionId == sid) := funext fun x => by
    simp [Function.comp, hid]
  rw [hpred]
  cases l.find? (fun x => x.sessionId == sid) <;> simp [hexp]

theorem sessionExpiry_step {s : GameState} {sid e : Nat} (h : Inv s)
    (hc : sessionExpiry s sid = some e) (op : Op) : sessionExpiry (step s op) sid = some e := by
  have hex : ∃ x, findSession s sid = some x ∧ x.expiresAt = e := by
    unfold sessionExpiry at hc
    cases hf : findSession s sid with
    | none => rw [hf] at hc; simp at hc
    | some x =>
      rw [hf] at hc
      exact ⟨x, rfl, by simpa using hc⟩
  obtain ⟨x, hxf, hxe⟩ := hex
  obtain ⟨hxmem, hxid⟩ := findSession_eq hxf
  have hxfresh : sid < s.nextId := hxid ▸ h.sessFresh x hxmem
  cases op with
  | start now u =>
    show sessionExpiry (startSession now u s).2 sid = some e
    unfold startSession
    by_cases h1 : 5 ≤ recentCount s.startLog u now 3600
    · simp only [if_pos h1]; exact hc
    · simp only [if_neg h1]
      by_cases h2 : (s.sessions.any fun x =>
          x.userId == u && x.active && decide (now ≤ x.expiresAt)) = true
      · simp only [if_pos h2]; exact hc
      · simp only [if_neg h2]
        unfold sessionExpiry findSession startedState retireExpired
        rw [List.find?_cons_of_neg _ (by simp; omega)]
        rw [sessionExpiry_map (fun x => by split <;> rfl) (fun x => by split <;> rfl)]
        unfold sessionExpiry findSession at hc
        exact hc
  | submit now u tid2 a =>
    show sessionExpiry (submitAction now u tid2 a s).2 sid = some e
    unfold submitAction
    by_cases hrate : 10 ≤ recentCount s.submitLog u now 60
    · simp only [if_pos hrate]; exact hc
    · simp only [if_neg hrate]
      unfold applyAction
      cases hp : pointsFor a with
      | none => exact hc
      | some points =>
        rcases hv : validateAndRotate now u tid2 { s with submitLog := (u, now) :: s.submitLog }
          with ⟨r, s2⟩
        cases r with
        | error e2 => exact hc
        | ok tk =>
          obtain ⟨tok, sess, htok, hu2, hact, hsess, _, _, _, hs2⟩ := validateAndRotate_ok hv
          subst hs2
          show sessionExpiry
            { rotatedState now u tid2 sess { s with submitLog := (u, now) :: s.submitLog } with
              scores := _, events := _ } sid = some e
          unfold sessionExpiry findSession rotatedState
          rw [sessionExpiry_map (bumpSession_sessionId sess.sessionId)
            (bumpSession_expiresAt sess.sessionId)]
          unfold sessionExpiry findSession at hc
          exact hc
  | finish now u =>
    show sessionExpiry (endSession now u s).2 sid = some e
    unfold endSession
    cases hf2 : s.sessions.find? (fun x => x.userId == u && x.active) with
    | none => exact hc
    | some sess =>
      unfold sessionExpiry findSession endedState
      rw [sessionExpiry_map (deactivateSession_sessionId now sess.sessionId)
        (deactivateSession_expiresAt now sess.sessionId)]
      unfold sessionExpiry findSession at hc
      exact hc

theorem sessionExpiry_run {s : GameState} {sid e : Nat} (h : Inv s)
    (hc : sessionExpiry s sid = some e) (ops : List Op) :
    sessionExpiry (run s ops) sid = some e := by
  induction ops generalizing s with
  | nil => exact hc
  | cons op ops ih => exact ih (inv_step h op) (sessionExpiry_step h hc op)

end Scoreboard

/-- C3: in any state reachable from the empty state, every session's
expiry equals its creation time plus the fixed session duration, every
token's `expiresAt` equals the expiry of the session it references, and a
session's expiry never changes under any further sequence of operations —
all tokens of a session share one immutable expiry instant, so no action
extends play time. -/
theorem session_shared_expiry (ops ops' : List Scoreboard.Op) (sid e : Nat) :
    (∀ x ∈ (Scoreboard.run Scoreboard.initState ops).sessions,
      x.expiresAt = x.createdAt + Scoreboard.sessionDuration) ∧
    (∀ t ∈ (Scoreboard.run Scoreboard.initState ops).tokens,
      ∃ x ∈ (Scoreboard.run Scoreboard.initState ops).sessions,
        x.sessionId = t.sessionId ∧ x.expiresAt = t.expiresAt) ∧
    (Scoreboard.sessionExpiry (Scoreboard.run Scoreboard.initState ops) sid = some e →
      Scoreboard.sessionExpiry
        (Scoreboard.run (Scoreboard.run Scoreboard.initState ops) ops') sid = some e) := by
  have hinv := Scoreboard.inv_run Scoreboard.inv_initState ops
  exact ⟨hinv.sessExpiry, hinv.tokExpiry,
    fun hc => Scoreboard.sessionExpiry_run hinv hc ops'⟩

/-- Witness for C3 at concrete inputs: the successor token issued at time
5 inside session 0 references a session sharing its expiry 1800, and the
session still reports expiry 1800 after further operations. -/
theorem session_shared_expiry_witness :
    (∃ x ∈ (Scoreboard.run Scoreboard.initState
        [Scoreboard.Op.start 0 7, Scoreboard.Op.submit 5 7 1 "watch_ad"]).sessions,
      x.sessionId =
        (⟨2, 0, 7, 1800, 5, true, none⟩ : Scoreboard.ActionToken).sessionId ∧
      x.expiresAt =
        (⟨2, 0, 7, 1800, 5, true, none⟩ : Scoreboard.ActionToken).expiresAt) ∧
    Scoreboard.sessionExpiry
      (Scoreboard.run
        (Scoreboard.run Scoreboard.initState
          [Scoreboard.Op.start 0 7, Scoreboard.Op.submit 5 7 1 "watch_ad"])
        [Scoreboard.Op.submit 9 7 2 "watch_ad"]) 0 = some 1800 :=
  ⟨(session_shared_expiry
      [Scoreboard.Op.start 0 7, Scoreboard.Op.submit 5 7 1 "watch_ad"]
      [Scoreboard.Op.submit 9 7 2 "watch_ad"] 0 1800).2.1
      ⟨2, 0, 7, 1800, 5, true, none⟩ (by decide),
   (session_shared_expiry
      [Scoreboard.Op.start 0 7, Scoreboard.Op.submit 5 7 1 "watch_ad"]
      [Scoreboard.Op.submit 9 7 2 "watch_ad"] 0 1800).2.2 (by decide)⟩

namespace Scoreboard

/-- Whether a `submitAction` outcome is a success. -/
def isOk : Except GameError ActionResult → Bool
  | .ok _ => true
  | .error _ => false

/-- `n` serialized `submitAction` calls presenting the same token at the
same instant — the serialization of `n` concurrent submissions racing on
one token (the spec's §5 serialization boundary makes the concurrent
executions equivalent to some such sequence). -/
def submitN : Nat → Nat → Nat → Nat → String → GameState →
    List (Except GameError ActionResult) × GameState
  | 0, _, _, _, _, s => ([], s)
  | n + 1, now, u, tid, a, s =>
    let r := submitAction now u tid a s
    let rest := submitN n now u tid a r.2
    (r.1 :: rest.1, rest.2)

/-- A reachable state in which user 7 already has 10 admitted
`submitAction` calls inside the current rolling minute. -/
def busyState : GameState :=
  { demoState with submitLog := (List.range 10).map (fun t => (7, t)) }

/-- Whether a `submitAction` outcome is the rate-limit failure. -/
def isRateLimited : GameError → Bool
  | .RateLimitExceeded => true
  | _ => false

/-- The failure kind of an outcome, when it is a failure. -/
def errOf : Except GameError ActionResult → Option GameError
  | .ok _ => none
  | .error e => some e

end Scoreboard

/-- C5, counterexample: the claim "N concurrent submissions of one valid
token yield exactly one success and N−1 failures, each `TokenAlreadyUsed`
or `InvalidToken`" fails on the model once the Request Gate's rolling
rate limit (10 `submitAction` per minute, checked ahead of all other
logic) enters: (i) with 11 simultaneous submissions of the fresh valid
token 1 by its owner, one failure is `RateLimitExceeded`, which is
neither of the two claimed kinds; (ii) from a state whose rolling window
already holds 10 admitted calls, 2 submissions of the still valid
(unconsumed) token 1 produce zero successes instead of exactly one. -/
theorem race_safety_counterexample :
    ((Scoreboard.submitN 11 5 7 1 "watch_ad" Scoreboard.demoState).1.filterMap
      Scoreboard.errOf).countP Scoreboard.isRateLimited = 1 ∧
    ((Scoreboard.submitN 2 5 7 1 "watch_ad" Scoreboard.busyState).1.filter
      Scoreboard.isOk).length = 0 ∧
    Scoreboard.tokenConsumedB Scoreboard.busyState 1 = false := by
  exact ⟨by decide, by decide, by decide⟩

namespace Scoreboard

theorem validateAndRotate_consumed {now u tid : Nat} {s : GameState} {t : ActionToken}
    (htok : findToken s tid = some t) (hu : t.userId = u) (hact : t.active = false) :
    validateAndRotate now u tid s = (.error .TokenAlreadyUsed, s) := by
  unfold validateAndRotate
  rw [htok]
  simp [hu, hact]

theorem validateAndRotate_valid {now u tid : Nat} {s : GameState} {tok : ActionToken}
    {sess : Session} (htok : findToken s tid = some tok) (hu : tok.userId = u)
    (hact : tok.active = true) (hsess : findSession s tok.sessionId = some sess)
    (hsa : sess.active = true) (hse : now ≤ sess.expiresAt) :
    validateAndRotate now u tid s =
      (.ok (newToken now u sess s), rotatedState now u tid sess s) := by
  unfold validateAndRotate
  rw [htok]
  simp [hu, hact, hsess, hsa, hse]

theorem find_map_update (u v : Nat) :
    ∀ scores : List (Nat × Nat), (scores.any fun q => q.1 == u) = true →
      (scores.map (fun q => if q.1 == u then (q.1, v) else q)).find? (fun q => q.1 == u) =
        some (u, v) := by
  intro scores
  induction scores with
  | nil => intro h; simp at h
  | cons q qs ih =>
    intro h
    by_cases hq : q.1 = u
    · rw [List.map_cons]
      have hhead : (if q.1 == u then (q.1, v) else q) = (u, v) := by simp [hq]
      rw [hhead, List.find?_cons_of_pos _ (by simp)]
    · rw [List.map_cons]
      have hhead : (if q.1 == u then (q.1, v) else q) = q := by simp [hq]
      rw [hhead, List.find?_cons_of_neg _ (by simp [hq])]
      apply ih
      simpa [List.any_cons, hq] using h

theorem find_append_update (u v : Nat) :
    ∀ scores : List (Nat × Nat), (scores.any fun q => q.1 == u) = false →
      (scores ++ [(u, v)]).find? (fun q => q.1 == u) = some (u, v) := by
  intro scores
  induction scores with
  | nil =>
    intro _
    rw [List.nil_append, List.find?_cons_of_pos _ (by simp)]
  | cons q qs ih =>
    intro h
    rw [List.any_cons, Bool.or_eq_false_iff] at h
    rw [List.cons_append, List.find?_cons_of_neg _ (by simp [h.1])]
    exact ih h.2

theorem updateScore_find (scores : List (Nat × Nat)) (u v : Nat) :
    (updateScore scores u v).find? (fun q => q.1 == u) = some (u, v) := by
  unfold updateScore
  by_cases hany : (scores.any fun q => q.1 == u) = true
  · rw [if_pos hany]
    exact find_map_update u v scores hany
  · rw [if_neg hany]
    refine find_append_update u v scores ?_
    cases h2 : (scores.any fun q => q.1 == u) with
    | true => exact absurd h2 hany
    | false => rfl

theorem lookupScore_congr {s1 s2 : GameState} (h : s1.scores = s2.scores) (u : Nat) :
    lookupScore s1 u = lookupScore s2 u := by
  unfold lookupScore
  rw [h]

theorem submitN_succ (k now u tid : Nat) (a : String) (s : GameState) :
    submitN (k + 1) now u tid a s =
      ((submitAction now u tid a s).1 ::
          (submitN k now u tid a (submitAction now u tid a s).2).1,
        (submitN k now u tid a (submitAction now u tid a s).2).2) := rfl

theorem submitN_consumed {u tid p : Nat} {a : String} (hp : pointsFor a = some p) :
    ∀ (m now : Nat) (st : GameState) (t : ActionToken),
      findToken st tid = some t → t.active = false → t.userId = u →
      (∀ r ∈ (submitN m now u tid a st).1,
        r = .error .TokenAlreadyUsed ∨ r = .error .RateLimitExceeded) ∧
      (submitN m now u tid a st).2.scores = st.scores := by
  intro m
  induction m with
  | zero =>
    intro now st t _ _ _
    exact ⟨by intro r hr; simp [submitN] at hr, rfl⟩
  | succ k ih =>
    intro now st t htok hact hu
    by_cases hrate : 10 ≤ recentCount st.submitLog u now 60
    · have hsub : submitAction now u tid a st = (.error .RateLimitExceeded, st) := by
        unfold submitAction
        rw [if_pos hrate]
      rw [submitN_succ, hsub]
      obtain ⟨ih1, ih2⟩ := ih now st t htok hact hu
      refine ⟨?_, ih2⟩
      intro r hr
      rcases List.mem_cons.mp hr with rfl | hr'
      · exact Or.inr rfl
      · exact ih1 r hr'
    · have htok1 : findToken { st with submitLog := (u, now) :: st.submitLog } tid = some t :=
        htok
      have hrot := @validateAndRotate_consumed now u tid
        { st with submitLog := (u, now) :: st.submitLog } t htok1 hu hact
      have hsub : submitAction now u tid a st =
          (.error .TokenAlreadyUsed, { st with submitLog := (u, now) :: st.submitLog }) := by
        unfold submitAction
        rw [if_neg hrate]
        unfold applyAction
        rw [hp, hrot]
      rw [submitN_succ, hsub]
      obtain ⟨ih1, ih2⟩ :=
        ih now { st with submitLog := (u, now) :: st.submitLog } t htok1 hact hu
      refine ⟨?_, ih2⟩
      intro r hr
      rcases List.mem_cons.mp hr with rfl | hr'
      · exact Or.inl rfl
      · exact ih1 r hr'

end Scoreboard

/-- C5, amended: in any well-formed state (token ids below the freshness
counter) holding a token valid for its owner `u`, with the owner's
rolling-minute window empty, any serialization of `n ≥ 2` concurrent
submissions of that token yields exactly one success; every failure is
`TokenAlreadyUsed`, `InvalidToken` or `RateLimitExceeded` (the last once
the 10-per-minute cap is crossed); and the final score reflects exactly
one point increment. -/
theorem race_safety_amended (s : Scoreboard.GameState) (now u tid p n : Nat) (a : String)
    (tok : Scoreboard.ActionToken) (sess : Scoreboard.Session)
    (htok : Scoreboard.findToken s tid = some tok) (hu : tok.userId = u)
    (hact : tok.active = true)
    (hsess : Scoreboard.findSession s tok.sessionId = some sess)
    (hsa : sess.active = true) (hse : now ≤ sess.expiresAt)
    (hp : Scoreboard.pointsFor a = some p)
    (hrate : Scoreboard.recentCount s.submitLog u now 60 = 0)
    (hfresh : ∀ t ∈ s.tokens, t.tokenId < s.nextId)
    (hn : 2 ≤ n) :
    ((Scoreboard.submitN n now u tid a s).1.filter Scoreboard.isOk).length = 1 ∧
    (∀ r ∈ (Scoreboard.submitN n now u tid a s).1,
      Scoreboard.isOk r = true ∨ r = .error .TokenAlreadyUsed ∨
        r = .error .InvalidToken ∨ r = .error .RateLimitExceeded) ∧
    Scoreboard.lookupScore (Scoreboard.submitN n now u tid a s).2 u =
      Scoreboard.lookupScore s u + p := by
  obtain ⟨m, rfl⟩ : ∃ m, n = m + 1 := ⟨n - 1, by omega⟩
  have htid : tok.tokenId = tid := (Scoreboard.findToken_eq htok).2
  have hlt : tid < s.nextId := htid ▸ hfresh tok (Scoreboard.findToken_eq htok).1
  have htok1 : Scoreboard.findToken { s with submitLog := (u, now) :: s.submitLog } tid =
      some tok := htok
  have hsess1 : Scoreboard.findSession { s with submitLog := (u, now) :: s.submitLog }
      tok.sessionId = some sess := hsess
  have hrot := @Scoreboard.validateAndRotate_valid now u tid
    { s with submitLog := (u, now) :: s.submitLog } tok sess htok1 hu hact hsess1 hsa hse
  have hnotrate : ¬ 10 ≤ Scoreboard.recentCount s.submitLog u now 60 := by
    rw [hrate]; omega
  have hsub : Scoreboard.submitAction now u tid a s =
      (.ok { scoreAfter :=
                Scoreboard.lookupScore { s with submitLog := (u, now) :: s.submitLog } u + p
             pointsEarned := p
             newTokenId := (Scoreboard.newToken now u sess
                { s with submitLog := (u, now) :: s.submitLog }).tokenId
             expiresAt := (Scoreboard.newToken now u sess
                { s with submitLog := (u, now) :: s.submitLog }).expiresAt },
        { Scoreboard.rotatedState now u tid sess
            { s with submitLog := (u, now) :: s.submitLog } with
          scores := Scoreboard.updateScore
            (Scoreboard.rotatedState now u tid sess
              { s with submitLog := (u, now) :: s.submitLog }).scores u
            (Scoreboard.lookupScore { s with submitLog := (u, now) :: s.submitLog } u + p)
          events :=
            { userId := u, actionType := a, pointsEarned := p, tokenId := tid
              scoreBefore :=
                Scoreboard.lookupScore { s with submitLog := (u, now) :: s.submitLog } u
              scoreAfter :=
                Scoreboard.lookupScore { s with submitLog := (u, now) :: s.submitLog } u + p
              occurredAt := now } ::
              (Scoreboard.rotatedState now u tid sess
                { s with submitLog := (u, now) :: s.submitLog }).events }) := by
    unfold Scoreboard.submitAction
    rw [if_neg hnotrate]
    unfold Scoreboard.applyAction
    rw [hp, hrot]
  rw [Scoreboard.submitN_succ, hsub]
  have htokS2 : Scoreboard.findToken
      { Scoreboard.rotatedState now u tid sess
          { s with submitLog := (u, now) :: s.submitLog } with
        scores := Scoreboard.updateScore
          (Scoreboard.rotatedState now u tid sess
            { s with submitLog := (u, now) :: s.submitLog }).scores u
          (Scoreboard.lookupScore { s with submitLog := (u, now) :: s.submitLog } u + p)
        events :=
          { userId := u, actionType := a, pointsEarned := p, tokenId := tid
            scoreBefore :=
              Scoreboard.lookupScore { s with submitLog := (u, now) :: s.submitLog } u
            scoreAfter :=
              Scoreboard.lookupScore { s with submitLog := (u, now) :: s.submitLog } u + p
            occurredAt := now } ::
            (Scoreboard.rotatedState now u tid sess
              { s with submitLog := (u, now) :: s.submitLog }).events }
      tid = some (Scoreboard.consumeTok now tid tok) := by
    show (Scoreboard.newToken now u sess { s with submitLog := (u, now) :: s.submitLog } ::
        s.tokens.map (Scoreboard.consumeTok now tid)).find? (fun t => t.tokenId == tid) =
      some (Scoreboard.consumeTok now tid tok)
    rw [List.find?_cons_of_neg _ (by simp [Scoreboard.newToken]; omega)]
    rw [Scoreboard.find?_map_pres (fun t => Scoreboard.consumeTok_tokenId now tid t)]
    show (Scoreboard.findToken s tid).map (Scoreboard.consumeTok now tid) =
      some (Scoreboard.consumeTok now tid tok)
    rw [htok]
    rfl
  have hcact : (Scoreboard.consumeTok now tid tok).active = false := by
    unfold Scoreboard.consumeTok
    rw [if_pos (by simp [htid])]
  have hcuser : (Scoreboard.consumeTok now tid tok).userId = u := by
    rw [Scoreboard.consumeTok_userId]; exact hu
  obtain ⟨hrest_err, hrest_scores⟩ :=
    Scoreboard.submitN_consumed hp m now _ (Scoreboard.consumeTok now tid tok)
      htokS2 hcact hcuser
  have hlook : Scoreboard.lookupScore
      (Scoreboard.submitN m now u tid a
        { Scoreboard.rotatedState now u tid sess
            { s with submitLog := (u, now) :: s.submitLog } with
          scores := Scoreboard.updateScore
            (Scoreboard.rotatedState now u tid sess
              { s with submitLog := (u, now) :: s.submitLog }).scores u
            (Scoreboard.lookupScore { s with submitLog := (u, now) :: s.submitLog } u + p)
          events :=
            { userId := u, actionType := a, pointsEarned := p, tokenId := tid
              scoreBefore :=
                Scoreboard.lookupScore { s with submitLog := (u, now) :: s.submitLog } u
              scoreAfter :=
                Scoreboard.lookupScore { s with submitLog := (u, now) :: s.submitLog } u + p
              occurredAt := now } ::
              (Scoreboard.rotatedState now u tid sess
                { s with submitLog := (u, now) :: s.submitLog }).events }).2 u =
      Scoreboard.lookupScore s u + p := by
    rw [Scoreboard.lookupScore_congr hrest_scores]
    show (match (Scoreboard.updateScore s.scores u
        (Scoreboard.lookupScore s u + p)).find? (fun q => q.1 == u) with
      | some q => q.2 | none => 0) = Scoreboard.lookupScore s u + p
    rw [Scoreboard.updateScore_find]
  refine ⟨?_, ?_, hlook⟩
  · rw [List.filter_cons_of_pos (by rfl), List.length_cons]
    have hnil : ∀ lst : List (Except Scoreboard.GameError Scoreboard.ActionResult),
        (∀ r ∈ lst, r = .error .TokenAlreadyUsed ∨ r = .error .RateLimitExceeded) →
        lst.filter Scoreboard.isOk = [] := by
      intro lst hall
      rw [List.filter_eq_nil_iff]
      intro r hr
      rcases hall r hr with rfl | rfl <;> simp [Scoreboard.isOk]
    rw [hnil _ hrest_err]
    rfl
  · intro r hr
    rcases List.mem_cons.mp hr with rfl | hr'
    · exact Or.inl rfl
    · rcases hrest_err r hr' with rfl | rfl
      · exact Or.inr (Or.inl rfl)
      · exact Or.inr (Or.inr (Or.inr rfl))

/-- Witness for the amended C5 at concrete input: 3 simultaneous
submissions of the fresh valid token 1 yield exactly one success, and user
7's score rises by exactly the 10 points of one `watch_ad`. -/
theorem race_safety_amended_witness :
    ((Scoreboard.submitN 3 5 7 1 "watch_ad" Scoreboard.demoState).1.filter
      Scoreboard.isOk).length = 1 ∧
    Scoreboard.lookupScore (Scoreboard.submitN 3 5 7 1 "watch_ad" Scoreboard.demoState).2 7 =
      Scoreboard.lookupScore Scoreboard.demoState 7 + 10 :=
  have h := race_safety_amended Scoreboard.demoState 5 7 1 10 3 "watch_ad"
    ⟨1, 0, 7, 1800, 0, true, none⟩ ⟨0, 7, 0, 1800, true, 0, none⟩
    (by decide) rfl rfl (by decide) rfl (by decide) (by decide) (by decide)
    (by decide) (by decide)
  ⟨h.1, h.2.2⟩

namespace Scoreboard

/-- Modelled from the spec: the Rank Index total order of §4.3 —
`(score desc, userId asc)`. `a` comes weakly before `b` when `a` scores
higher, or they tie and `a` has the smaller-or-equal userId. -/
def rankLe (a b : Nat × Nat) : Prop := b.2 < a.2 ∨ (a.2 = b.2 ∧ a.1 ≤ b.1)

instance : DecidableRel rankLe := fun a b => by
  unfold rankLe
  exact inferInstance

instance : IsTotal (Nat × Nat) rankLe :=
  ⟨by intro a b; unfold rankLe; omega⟩

instance : IsTrans (Nat × Nat) rankLe :=
  ⟨by intro a b c; unfold rankLe; omega⟩

/-- The leaderboard: the score ledger sorted by `(score desc, userId asc)`. -/
def leaderboard (s : GameState) : List (Nat × Nat) :=
  s.scores.insertionSort rankLe

/-- Modelled from the spec: `topN(n)` — the ordered prefix of the `n`
highest scorers (§4.3). -/
def getTopN (s : GameState) (n : Nat) : List (Nat × Nat) :=
  (leaderboard s).take n

/-- 0-based position of user `u` in a leaderboard list. -/
def posOf (u : Nat) : List (Nat × Nat) → Option Nat
  | [] => none
  | q :: l => if q.1 == u then some 0 else (posOf u l).map (· + 1)

/-- Modelled from the spec: `rankOf(userId)` — the 1-based position of the
user in the leaderboard order (§4.3). -/
def rankOf (s : GameState) (u : Nat) : Option Nat :=
  (posOf u (leaderboard s)).map (· + 1)

/-- Whether entry `q` ranks strictly before a user with id `u` and score
`sc`: strictly higher score, or a tie with smaller userId. -/
def beats (q : Nat × Nat) (u sc : Nat) : Bool :=
  decide (sc < q.2) || (q.2 == sc && decide (q.1 < u))

theorem length_filter_beats_split (u sc : Nat) (l : List (Nat × Nat)) :
    (l.filter (fun q => beats q u sc)).length =
      (l.filter (fun q => decide (sc < q.2))).length +
      (l.filter (fun q => q.2 == sc && decide (q.1 < u))).length := by
  induction l with
  | nil => rfl
  | cons q qs ih =>
    simp only [beats] at ih ⊢
    rw [List.filter_cons, List.filter_cons, List.filter_cons]
    by_cases h1 : sc < q.2
    · have hc1 : (decide (sc < q.2)) = true := by simp [h1]
      have hc2 : (q.2 == sc && decide (q.1 < u)) = false := by
        have : (q.2 == sc) = false := by simp; omega
        simp [this]
      have hb : (decide (sc < q.2) || (q.2 == sc && decide (q.1 < u))) = true := by
        simp [hc1]
      rw [if_pos hb, if_pos hc1, if_neg (by simp [hc2])]
      simp only [List.length_cons]
      omega
    · have hc1 : (decide (sc < q.2)) = false := by simp [h1]
      by_cases h3 : (q.2 == sc && decide (q.1 < u)) = true
      · have hb : (decide (sc < q.2) || (q.2 == sc && decide (q.1 < u))) = true := by
          simp [h3]
        rw [if_pos hb, if_neg (by simp [hc1]), if_pos h3]
        simp only [List.length_cons]
        omega
      · have h3f : (q.2 == sc && decide (q.1 < u)) = false := by
          revert h3
          cases h4 : (q.2 == sc && decide (q.1 < u)) <;> simp
        have hb : (decide (sc < q.2) || (q.2 == sc && decide (q.1 < u))) = false := by
          rw [hc1, h3f]
          rfl
        rw [if_neg (by simp [hb]), if_neg (by simp [hc1]), if_neg (by simp [h3f])]
        omega

theorem posOf_sorted (u sc : Nat) :
    ∀ l : List (Nat × Nat), l.Sorted rankLe → (l.map Prod.fst).Nodup → (u, sc) ∈ l →
      posOf u l = some ((l.filter (fun q => beats q u sc)).length) := by
  intro l
  induction l with
  | nil => intro _ _ hmem; simp at hmem
  | cons x xs ih =>
    intro hsort hnodup hmem
    rw [List.sorted_cons] at hsort
    rw [List.map_cons, List.nodup_cons] at hnodup
    by_cases hx : x.1 = u
    · have hxeq : x = (u, sc) := by
        rcases List.mem_cons.mp hmem with h | h
        · exact h.symm
        · exfalso
          apply hnodup.1
          rw [hx]
          exact List.mem_map.mpr ⟨(u, sc), h, rfl⟩
      have hpos : posOf u (x :: xs) = some 0 := by
        unfold posOf
        rw [if_pos (by simp [hx])]
      rw [hpos]
      have hfil : (x :: xs).filter (fun q => beats q u sc) = [] := by
        rw [List.filter_eq_nil_iff]
        intro q hq
        rcases List.mem_cons.mp hq with rfl | hq'
        · rw [hxeq]
          simp [beats]
        · have hle := hsort.1 q hq'
          rw [hxeq] at hle
          unfold rankLe at hle
          simp only [beats, Bool.or_eq_true, Bool.and_eq_true, decide_eq_true_eq,
            beq_iff_eq, not_or, not_and]
          omega
      rw [hfil]
      rfl
    · have hmem' : (u, sc) ∈ xs := by
        rcases List.mem_cons.mp hmem with h | h
        · exact absurd (congrArg Prod.fst h.symm) hx
        · exact h
      have hle := hsort.1 (u, sc) hmem'
      have hbx : beats x u sc = true := by
        unfold rankLe at hle
        simp only [beats, Bool.or_eq_true, Bool.and_eq_true, decide_eq_true_eq,
          beq_iff_eq]
        rcases hle with h | ⟨h1, h2⟩
        · exact Or.inl h
        · exact Or.inr ⟨h1, lt_of_le_of_ne h2 hx⟩
      unfold posOf
      rw [if_neg (by simp [hx])]
      rw [ih hsort.2 hnodup.2 hmem']
      have hcons : (x :: xs).filter (fun q => beats q u sc) =
          x :: xs.filter (fun q => beats q u sc) := by
        rw [List.filter_cons, if_pos hbx]
      rw [hcons]
      rfl

end Scoreboard

namespace Scoreboard

/-- A concrete ledger used to instantiate the rank theorem: users 3 and 5
tie at 20 points, user 7 has 10. -/
def rankDemoState : GameState := ⟨[], [], [(3, 20), (7, 10), (5, 20)], [], [], [], 0⟩

end Scoreboard

/-- C7: for every user present in the score ledger (with one entry per
user), `rankOf` is 1 plus the number of entries with strictly higher score
plus the number of tied entries with smaller userId; the leaderboard is a
permutation of the ledger sorted by `(score desc, userId asc)`, and
`getTopN` returns its `n`-prefix in that order. -/
theorem rank_of_correct (s : Scoreboard.GameState) (u sc n : Nat)
    (hnodup : (s.scores.map Prod.fst).Nodup) (hmem : (u, sc) ∈ s.scores) :
    Scoreboard.rankOf s u = some (1 +
      (s.scores.filter (fun q => decide (sc < q.2))).length +
      (s.scores.filter (fun q => q.2 == sc && decide (q.1 < u))).length) ∧
    List.Sorted Scoreboard.rankLe (Scoreboard.leaderboard s) ∧
    (Scoreboard.leaderboard s).Perm s.scores ∧
    Scoreboard.getTopN s n = (Scoreboard.leaderboard s).take n := by
  have hperm : (Scoreboard.leaderboard s).Perm s.scores :=
    List.perm_insertionSort Scoreboard.rankLe s.scores
  have hsort := List.sorted_insertionSort Scoreboard.rankLe s.scores
  have hnodup' : ((Scoreboard.leaderboard s).map Prod.fst).Nodup :=
    ((hperm.map Prod.fst).nodup_iff).mpr hnodup
  have hmem' : (u, sc) ∈ Scoreboard.leaderboard s := hperm.mem_iff.mpr hmem
  have hpos := Scoreboard.posOf_sorted u sc (Scoreboard.leaderboard s) hsort hnodup' hmem'
  refine ⟨?_, hsort, hperm, rfl⟩
  unfold Scoreboard.rankOf
  rw [hpos]
  have hlen : ((Scoreboard.leaderboard s).filter
        (fun q => Scoreboard.beats q u sc)).length =
      (s.scores.filter (fun q => Scoreboard.beats q u sc)).length :=
    (hperm.filter _).length_eq
  rw [Option.map_some']
  rw [hlen, Scoreboard.length_filter_beats_split]
  exact congrArg some (by omega)

/-- Witness for C7 at a concrete ledger: with users 3 and 5 tied at 20 and
user 7 at 10, user 5 ranks 2 (behind the tied smaller id 3), and the top-2
leaderboard is `[(3, 20), (5, 20)]`. -/
theorem rank_of_correct_witness :
    Scoreboard.rankOf Scoreboard.rankDemoState 5 = some 2 ∧
    Scoreboard.getTopN Scoreboard.rankDemoState 2 = [(3, 20), (5, 20)] := by
  have h := (rank_of_correct Scoreboard.rankDemoState 5 20 2 (by decide) (by decide)).1
  rw [h]
  exact ⟨rfl, rfl⟩
